import Mathlib

/-!
Verification of the One-Night-Werewolf game engine (`src/game/logic.py`).

The engine's pure logic lives in `game/logic.py`; the data classes it
manipulates come from `game/models.py`, which is not part of the source
tree — those structures are modelled from the design spec (§3 Data Model)
and from how `logic.py` and `bot.py` use them, and each such definition is
marked `Modelled from the spec:` in its doc comment.

Python's in-place mutation is embedded as explicit state passing: every
engine function takes a `GameState` and returns the updated `GameState`
together with its Python return value.  A function that can raise returns
a success flag (or a dedicated outcome type) instead; the returned state
is then the state as the exception would leave it.
-/

namespace OneNight

/-- Modelled from the spec: the closed set of role identity tags
(`game/models.py` is absent; roles are those used by `logic.py`). -/
inductive Role
  | villager
  | werewolf
  | seer
  | thief
  | tanner
deriving DecidableEq, Repr

/-- Modelled from the spec: faction tags. -/
inductive Team
  | village
  | werewolf
  | tanner
deriving DecidableEq, Repr

/-- Modelled from the spec: game phases, strictly forward moving
(Waiting → Night → Discussion → Voting → Ended). -/
inductive GamePhase
  | waiting
  | night
  | discussion
  | voting
  | ended
deriving DecidableEq, Repr

/-- Modelled from the spec: the kind tag of a recorded night action. -/
inductive NightActionType
  | werewolfCheck
  | seerPlayer
  | seerCenter
  | thiefSwap
  | thiefSkip
deriving DecidableEq, Repr

/-- Modelled from the spec: a role's display name, used only inside the
human-readable `result` strings recorded on night actions.  The exact
text lives in the absent `game/models.py`; no claim depends on it. -/
def Role.value : Role → String
  | .villager => "村人"
  | .werewolf => "人狼"
  | .seer => "占い師"
  | .thief => "怪盗"
  | .tanner => "吊り人"

/-- Modelled from the spec: the record of a player's resolved night action
(kind, optional target, human-readable result). -/
structure NightAction where
  action_type : NightActionType
  target_player_id : Option Int := none
  result : String := ""
deriving DecidableEq, Repr

/-- Modelled from the spec: one participant.  `vote_target_id = some (-1)`
is the abstain sentinel; `none` means "has not voted yet". -/
structure Player where
  user_id : Int
  username : String
  initial_role : Role
  current_role : Role
  has_acted : Bool := false
  night_action : Option NightAction := none
  vote_target_id : Option Int := none
deriving DecidableEq, Repr

/-- Modelled from the spec: the per-session game state.  The Python
roster is a `dict[int, Player]` with insertion order preserved and unique
keys; it is embedded as a `List Player` (theorems that need key
uniqueness assume `Nodup` of the ids). -/
structure GameState where
  players : List Player
  center_cards : List Role := []
  phase : GamePhase := .waiting
  night_action_order : List Role := []
  night_action_index : Nat := 0
  executed_player_ids : List Int := []
  winners : List Team := []
deriving DecidableEq, Repr

/-- Modelled from the spec: `GameState.get_player` — roster lookup by
user id, `none` when absent.  Spec §3: the abstain sentinel id never
collides with a real participant identity, so it is never found here. -/
def GameState.get_player (state : GameState) (uid : Int) : Option Player :=
  state.players.find? (fun p => decide (p.user_id = uid))

/-- Modelled from the spec: players filtered by current or initial role
(`get_players_by_role` in the absent models module; `determine_winner`
calls it with `use_current=True`). -/
def GameState.get_players_by_role (state : GameState) (role : Role)
    (use_current : Bool) : List Player :=
  state.players.filter
    (fun p => decide ((if use_current then p.current_role else p.initial_role) = role))

/-- In-place mutation of the single roster entry with the given id
(Python mutates the `Player` object held in the dict). -/
def GameState.update_player (state : GameState) (uid : Int)
    (f : Player → Player) : GameState :=
  { state with players := state.players.map (fun p => if p.user_id = uid then f p else p) }

/-- Embedding of `register_vote` (logic.py:312).  Returns the state
(unchanged on every rejection path, which in Python simply returns
`False` before any assignment) and the boolean result. -/
def register_vote (state : GameState) (voter_id target_id : Int) :
    GameState × Bool :=
  match state.get_player voter_id, state.get_player target_id with
  | none, _ => (state, false)
  | some _, none => (state, false)
  | some voter, some _ =>
    if voter_id = target_id then (state, false)
    else if voter.vote_target_id ≠ none then (state, false)
    else (state.update_player voter_id
            (fun p => { p with vote_target_id := some target_id }), true)

/-- Looking up the updated id after `update_player` yields the looked-up
player with the update applied, provided the update preserves ids. -/
lemma find?_map_update_self (l : List Player) (uid : Int) (f : Player → Player)
    (hid : ∀ p, (f p).user_id = p.user_id) :
    (l.map (fun p => if p.user_id = uid then f p else p)).find?
        (fun p => decide (p.user_id = uid))
      = (l.find? (fun p => decide (p.user_id = uid))).map f := by
  induction l with
  | nil => rfl
  | cons q l ih =>
    by_cases h : q.user_id = uid
    · simp [List.find?, h, hid]
    · simp [List.find?, h, ih]

/-- Looking up any other id after `update_player` is unchanged, provided
the update preserves ids. -/
lemma find?_map_update_other (l : List Player) (uid uid' : Int) (f : Player → Player)
    (hid : ∀ p, (f p).user_id = p.user_id) (hne : uid' ≠ uid) :
    (l.map (fun p => if p.user_id = uid then f p else p)).find?
        (fun p => decide (p.user_id = uid'))
      = l.find? (fun p => decide (p.user_id = uid')) := by
  induction l with
  | nil => rfl
  | cons q l ih =>
    simp only [List.map_cons]
    by_cases h : q.user_id = uid
    · have h' : ¬ q.user_id = uid' := fun hq => hne (hq ▸ h ▸ rfl)
      have h'' : ¬ (f q).user_id = uid' := by rw [hid]; exact h'
      rw [if_pos h, List.find?_cons_of_neg _ (by simpa using h''),
        List.find?_cons_of_neg _ (by simpa using h')]
      exact ih
    · rw [if_neg h]
      by_cases h2 : q.user_id = uid'
      · rw [List.find?_cons_of_pos _ (by simpa using h2),
          List.find?_cons_of_pos _ (by simpa using h2)]
      · rw [List.find?_cons_of_neg _ (by simpa using h2),
          List.find?_cons_of_neg _ (by simpa using h2)]
        exact ih

lemma get_player_update_self (state : GameState) (uid : Int) (f : Player → Player)
    (hid : ∀ p, (f p).user_id = p.user_id) :
    (state.update_player uid f).get_player uid = (state.get_player uid).map f :=
  find?_map_update_self state.players uid f hid

lemma get_player_update_other (state : GameState) (uid uid' : Int) (f : Player → Player)
    (hid : ∀ p, (f p).user_id = p.user_id) (hne : uid' ≠ uid) :
    (state.update_player uid f).get_player uid' = state.get_player uid' :=
  find?_map_update_other state.players uid uid' f hid hne

/-- A small concrete roster reused by witnesses and counterexamples. -/
def alice : Player :=
  { user_id := 1, username := "alice", initial_role := .villager, current_role := .villager }

def bob : Player :=
  { user_id := 2, username := "bob", initial_role := .werewolf, current_role := .werewolf }

/-- A two-player session in the voting phase, nobody has voted yet. -/
def voteState : GameState := { players := [alice, bob], phase := .voting }

/-- C1 counterexample: a vote targeted at the abstain sentinel (-1) is
rejected by `register_vote` — the voter is a roster member who has not
voted, yet the call returns false — refuting "a sentinel-targeted vote
must be accepted".  (The frontend records abstain votes by writing
`vote_target_id := -1` directly, bypassing `register_vote`.) -/
theorem register_vote_rejects_abstain_sentinel :
    (voteState.get_player 1).isSome = true ∧
    voteState.get_player (-1) = none ∧
    register_vote voteState 1 (-1) = (voteState, false) :=
  ⟨rfl, rfl, rfl⟩

/-- A voter whose `vote_target_id` is already set is always rejected with
no mutation, whatever the target. -/
lemma register_vote_fails_if_voted (state : GameState) (voter_id target_id : Int)
    (voter : Player) (hv : state.get_player voter_id = some voter)
    (hvt : voter.vote_target_id ≠ none) :
    register_vote state voter_id target_id = (state, false) := by
  cases ht : state.get_player target_id
  · simp [register_vote, hv, ht]
  · by_cases he : voter_id = target_id <;> simp [register_vote, hv, ht, he, hvt]

/-- C1 (amended): `register_vote` returns false and mutates nothing when
the voter is not in the roster, when the target is not in the roster —
including the abstain sentinel, which is rejected like any unknown id —
when voter equals target, or when the voter has already voted; on
success it records the vote exactly once (only the voter's
`vote_target_id` changes, every other lookup and the rest of the state
are untouched), and any later `register_vote` call for the same voter
returns false and leaves the state, hence the first recorded vote,
unchanged. -/
theorem register_vote_spec (state : GameState) (voter_id target_id : Int) :
    (state.get_player voter_id = none →
      register_vote state voter_id target_id = (state, false)) ∧
    (state.get_player target_id = none →
      register_vote state voter_id target_id = (state, false)) ∧
    (voter_id = target_id →
      register_vote state voter_id target_id = (state, false)) ∧
    (∀ voter, state.get_player voter_id = some voter → voter.vote_target_id ≠ none →
      register_vote state voter_id target_id = (state, false)) ∧
    (∀ voter, state.get_player voter_id = some voter →
      (state.get_player target_id).isSome = true →
      voter_id ≠ target_id → voter.vote_target_id = none →
      (register_vote state voter_id target_id).2 = true ∧
      (register_vote state voter_id target_id).1.get_player voter_id =
        some { voter with vote_target_id := some target_id } ∧
      (∀ uid, uid ≠ voter_id →
        (register_vote state voter_id target_id).1.get_player uid = state.get_player uid) ∧
      (register_vote state voter_id target_id).1.players.length = state.players.length ∧
      (register_vote state voter_id target_id).1.center_cards = state.center_cards ∧
      (register_vote state voter_id target_id).1.phase = state.phase ∧
      (∀ target2_id,
        register_vote (register_vote state voter_id target_id).1 voter_id target2_id =
          ((register_vote state voter_id target_id).1, false))) := by
  refine ⟨?_, ?_, ?_, ?_, ?_⟩
  · intro h
    simp [register_vote, h]
  · intro h
    cases hv : state.get_player voter_id <;> simp [register_vote, hv, h]
  · intro h
    subst h
    cases hv : state.get_player voter_id <;> simp [register_vote, hv]
  · intro voter hv hvt
    exact register_vote_fails_if_voted state voter_id target_id voter hv hvt
  · intro voter hv hts hne hvt
    obtain ⟨target, ht⟩ := Option.isSome_iff_exists.mp hts
    have hrun : register_vote state voter_id target_id =
        (state.update_player voter_id
          (fun p => { p with vote_target_id := some target_id }), true) := by
      simp [register_vote, hv, ht, hne, hvt]
    have hid : ∀ p : Player,
        (({ p with vote_target_id := some target_id } : Player)).user_id = p.user_id :=
      fun _ => rfl
    have hself : (register_vote state voter_id target_id).1.get_player voter_id =
        some { voter with vote_target_id := some target_id } := by
      rw [hrun]
      rw [get_player_update_self state voter_id _ hid, hv]
      rfl
    refine ⟨by rw [hrun], hself, ?_, ?_, ?_, ?_, ?_⟩
    · intro uid hu
      rw [hrun]
      exact get_player_update_other state voter_id uid _ hid hu
    · rw [hrun]; simp [GameState.update_player]
    · rw [hrun]; simp [GameState.update_player]
    · rw [hrun]; simp [GameState.update_player]
    · intro target2_id
      exact register_vote_fails_if_voted _ voter_id target2_id _ hself (by simp)

/-- C1 witness: the amended contract instantiated on a concrete
two-player roster — player 1 successfully votes for player 2, the vote
is recorded, and a repeated vote by player 1 fails without mutation. -/
theorem register_vote_spec_witness :
    (register_vote voteState 1 2).2 = true ∧
    (register_vote voteState 1 2).1.get_player 1 =
      some { alice with vote_target_id := some 2 } ∧
    register_vote (register_vote voteState 1 2).1 1 2 =
      ((register_vote voteState 1 2).1, false) := by
  have h := (register_vote_spec voteState 1 2).2.2.2.2 alice (by rfl) (by rfl)
    (by decide) (by rfl)
  exact ⟨h.1, h.2.1, h.2.2.2.2.2.2 2⟩

/-- Embedding of `NIGHT_ACTION_ORDER` (logic.py:27): werewolf → seer → thief. -/
def NIGHT_ACTION_ORDER : List Role := [Role.werewolf, Role.seer, Role.thief]

/-- Embedding of `setup_game` (logic.py:34).  `shuffled` stands for the
output of `random.shuffle` on a copy of `role_list`; theorems take the
permutation relation as a hypothesis.  The flag is false when the deck
size check fails — Python raises ValueError there, before any mutation,
so the returned state is the input state. -/
def setup_game (state : GameState) (role_list shuffled : List Role) :
    GameState × Bool :=
  let player_count := state.players.length
  let expected_cards := player_count + 2
  if role_list.length ≠ expected_cards then (state, false)
  else
    ({ state with
        players := List.zipWith
          (fun p r => { p with initial_role := r, current_role := r })
          state.players shuffled
        center_cards := shuffled.drop player_count
        night_action_order := NIGHT_ACTION_ORDER
        night_action_index := 0
        phase := GamePhase.night }, true)

/-- Dealing assigns the first cards of the shuffled deck to the players
in roster order. -/
lemma zipWith_assign_map_initial (ps : List Player) (rs : List Role)
    (h : ps.length ≤ rs.length) :
    (List.zipWith (fun p r => { p with initial_role := r, current_role := r })
        ps rs).map Player.initial_role = rs.take ps.length := by
  induction ps generalizing rs with
  | nil => simp
  | cons p ps ih =>
    cases rs with
    | nil => simp at h
    | cons r rs =>
      simp only [List.zipWith, List.map_cons, List.length_cons, List.take_succ_cons]
      exact congrArg (r :: ·) (ih rs (by simpa using h))

/-- Every freshly dealt player has `initial_role = current_role`. -/
lemma zipWith_assign_roles_eq (ps : List Player) (rs : List Role) :
    ∀ q ∈ List.zipWith (fun p r => { p with initial_role := r, current_role := r })
        ps rs, q.initial_role = q.current_role := by
  induction ps generalizing rs with
  | nil => simp
  | cons p ps ih =>
    cases rs with
    | nil => simp
    | cons r rs =>
      intro q hq
      simp only [List.zipWith, List.mem_cons] at hq
      rcases hq with h | h
      · subst h; rfl
      · exact ih rs q h

/-- C4: for every roster and every deck whose length is roster size + 2,
after a successful setup_game the multiset of players' initial roles
together with the center card roles equals the multiset of the input
deck, every player's initial_role equals their current_role, there are
exactly 2 center cards, the phase is Night, and the night-action order
is Werewolf, Seer, Thief with the progress index 0. -/
theorem setup_game_spec (state : GameState) (role_list shuffled : List Role)
    (hperm : shuffled.Perm role_list)
    (hlen : role_list.length = state.players.length + 2) :
    (setup_game state role_list shuffled).2 = true ∧
    (((setup_game state role_list shuffled).1.players.map Player.initial_role) ++
        (setup_game state role_list shuffled).1.center_cards).Perm role_list ∧
    (∀ p ∈ (setup_game state role_list shuffled).1.players,
      p.initial_role = p.current_role) ∧
    (setup_game state role_list shuffled).1.center_cards.length = 2 ∧
    (setup_game state role_list shuffled).1.phase = GamePhase.night ∧
    (setup_game state role_list shuffled).1.night_action_order =
      [Role.werewolf, Role.seer, Role.thief] ∧
    (setup_game state role_list shuffled).1.night_action_index = 0 := by
  have hsl : shuffled.length = state.players.length + 2 :=
    hperm.length_eq.trans hlen
  have hle : state.players.length ≤ shuffled.length := by omega
  have hcond : ¬ role_list.length ≠ state.players.length + 2 := by
    simp [hlen]
  refine ⟨by simp [setup_game, hcond], ?_, ?_, ?_, ?_, ?_, ?_⟩
  · have hmap : (setup_game state role_list shuffled).1.players.map Player.initial_role =
        shuffled.take state.players.length := by
      simp only [setup_game, hcond, if_neg, not_false_iff]
      exact zipWith_assign_map_initial state.players shuffled hle
    have hcenter : (setup_game state role_list shuffled).1.center_cards =
        shuffled.drop state.players.length := by
      simp [setup_game, hcond]
    rw [hmap, hcenter, List.take_append_drop]
    exact hperm
  · intro p hp
    have : p ∈ List.zipWith
        (fun p r => { p with initial_role := r, current_role := r })
        state.players shuffled := by
      simpa [setup_game, hcond] using hp
    exact zipWith_assign_roles_eq state.players shuffled p this
  · simp [setup_game, hcond, hsl]
  · simp [setup_game, hcond]
  · simp [setup_game, hcond, NIGHT_ACTION_ORDER]
  · simp [setup_game, hcond]

/-- A one-player roster awaiting the deal. -/
def carol : Player :=
  { user_id := 7, username := "carol", initial_role := .villager, current_role := .villager }

def soloState : GameState := { players := [carol] }

/-- C4 witness: setup_game on a one-player roster with a three-card deck
satisfies every dealt-state property. -/
theorem setup_game_spec_witness :
    (setup_game soloState [Role.werewolf, Role.seer, Role.thief]
        [Role.seer, Role.werewolf, Role.thief]).2 = true ∧
    (setup_game soloState [Role.werewolf, Role.seer, Role.thief]
        [Role.seer, Role.werewolf, Role.thief]).1.center_cards.length = 2 ∧
    (setup_game soloState [Role.werewolf, Role.seer, Role.thief]
        [Role.seer, Role.werewolf, Role.thief]).1.phase = GamePhase.night := by
  have h := setup_game_spec soloState [Role.werewolf, Role.seer, Role.thief]
    [Role.seer, Role.werewolf, Role.thief] (by decide) (by decide)
  exact ⟨h.1, h.2.2.2.1, h.2.2.2.2.1⟩

/-- C5: setup_game fails — the raised ValueError models the
DeckSizeMismatch signalled to the caller — exactly when the deck length
differs from roster size + 2, and on that failure the whole state
(players' roles, center cards, phase) is left unchanged, since the check
precedes every mutation. -/
theorem setup_game_deck_size (state : GameState) (role_list shuffled : List Role) :
    ((setup_game state role_list shuffled).2 = false ↔
      role_list.length ≠ state.players.length + 2) ∧
    ((setup_game state role_list shuffled).2 = false →
      (setup_game state role_list shuffled).1 = state) := by
  by_cases h : role_list.length = state.players.length + 2 <;>
    simp [setup_game, h]

/-- C5 witness: an empty deck on a two-player roster fails and leaves the
state untouched. -/
theorem setup_game_deck_size_witness :
    (setup_game voteState [] []).2 = false ∧
    (setup_game voteState [] []).1 = voteState := by
  have h := setup_game_deck_size voteState [] []
  exact ⟨h.1.mpr (by decide), h.2 (h.1.mpr (by decide))⟩

/-- Embedding of `process_seer_action_player` (logic.py:140).  Returns
the updated state and the Python return value: the target's current role
on success, `none` on every rejection (no mutation happens then). -/
def process_seer_action_player (state : GameState) (seer_id target_id : Int) :
    GameState × Option Role :=
  match state.get_player seer_id, state.get_player target_id with
  | none, _ => (state, none)
  | some _, none => (state, none)
  | some seer, some target =>
    if seer.initial_role ≠ Role.seer then (state, none)
    else if seer_id = target_id then (state, none)
    else
      (state.update_player seer_id (fun p =>
        { p with
            night_action := some
              { action_type := .seerPlayer
                target_player_id := some target_id
                result := target.username ++ " の役職は " ++
                  target.current_role.value ++ " です" }
            has_acted := true }),
       some target.current_role)

/-- Outcome of `process_seer_action_center`: `invalid` is Python's `None`
return, `indexError` models the uncaught IndexError raised while
formatting `center_roles[0]`/`center_roles[1]` when fewer than two
center cards exist, `ok` carries the returned list. -/
inductive CenterOutcome
  | invalid
  | indexError
  | ok (roles : List Role)
deriving DecidableEq, Repr

/-- Embedding of `process_seer_action_center` (logic.py:179).  The
IndexError fires before the night action is recorded, so on that path
the state is returned unchanged. -/
def process_seer_action_center (state : GameState) (seer_id : Int) :
    GameState × CenterOutcome :=
  match state.get_player seer_id with
  | none => (state, .invalid)
  | some seer =>
    if seer.initial_role ≠ Role.seer then (state, .invalid)
    else
      match state.center_cards with
      | r0 :: r1 :: _ =>
        (state.update_player seer_id (fun p =>
          { p with
              night_action := some
                { action_type := .seerCenter
                  result := "中央カード: " ++ r0.value ++ ", " ++ r1.value }
              has_acted := true }),
         .ok state.center_cards)
      | _ => (state, .indexError)

/-- Embedding of `process_thief_action` (logic.py:249).  `target_id =
none` is the explicit skip.  The two `current_role` assignments of the
Python swap are the first two `update_player` steps; recording the
action is the third. -/
def process_thief_action (state : GameState) (thief_id : Int)
    (target_id : Option Int) : GameState × Option Role :=
  match state.get_player thief_id with
  | none => (state, none)
  | some thief =>
    if thief.initial_role ≠ Role.thief then (state, none)
    else
      match target_id with
      | none =>
        (state.update_player thief_id (fun p =>
          { p with
              night_action := some
                { action_type := .thiefSkip, result := "何もしませんでした" }
              has_acted := true }),
         none)
      | some tid =>
        match state.get_player tid with
        | none => (state, none)
        | some target =>
          if thief_id = tid then (state, none)
          else
            let old_thief_role := thief.current_role
            let new_thief_role := target.current_role
            let state1 := state.update_player thief_id
              (fun p => { p with current_role := new_thief_role })
            let state2 := state1.update_player tid
              (fun p => { p with current_role := old_thief_role })
            let state3 := state2.update_player thief_id (fun p =>
              { p with
                  night_action := some
                    { action_type := .thiefSwap
                      target_player_id := some tid
                      result := target.username ++
                        " とカードを交換しました。新しい役職: " ++
                        new_thief_role.value }
                  has_acted := true })
            (state3, some new_thief_role)

/-- C7: a seer inspecting another roster player receives exactly that
target's current (not initial) role; the call fails with no mutation at
all (hence records no action) when the target is the seer themself or is
not in the roster; inspecting the center returns exactly the two center
card roles in their stored order. -/
theorem seer_actions_spec (state : GameState) (seer_id : Int) (seer : Player)
    (hs : state.get_player seer_id = some seer)
    (hrole : seer.initial_role = Role.seer) :
    (∀ target_id target, state.get_player target_id = some target →
      seer_id ≠ target_id →
      (process_seer_action_player state seer_id target_id).2 =
        some target.current_role) ∧
    (process_seer_action_player state seer_id seer_id = (state, none)) ∧
    (∀ target_id, state.get_player target_id = none →
      process_seer_action_player state seer_id target_id = (state, none)) ∧
    (state.center_cards.length = 2 →
      (process_seer_action_center state seer_id).2 =
        CenterOutcome.ok state.center_cards) := by
  refine ⟨?_, ?_, ?_, ?_⟩
  · intro tid t ht hne
    simp [process_seer_action_player, hs, ht, hrole, hne]
  · simp [process_seer_action_player, hs, hrole]
  · intro tid ht
    simp [process_seer_action_player, hs, ht]
  · intro hc
    obtain ⟨r0, r1, hcc⟩ := List.length_eq_two.mp hc
    simp [process_seer_action_center, hs, hrole, hcc]

/-- A seer next to a villager, two center cards, night phase. -/
def dave : Player :=
  { user_id := 3, username := "dave", initial_role := .seer, current_role := .seer }

def seerState : GameState :=
  { players := [alice, dave], center_cards := [.thief, .tanner], phase := .night }

/-- C7 witness: dave the seer inspects alice and sees villager, and sees
both center cards in order. -/
theorem seer_actions_spec_witness :
    (process_seer_action_player seerState 3 1).2 = some Role.villager ∧
    (process_seer_action_center seerState 3).2 =
      CenterOutcome.ok [Role.thief, Role.tanner] := by
  have h := seer_actions_spec seerState 3 dave rfl rfl
  exact ⟨h.1 1 alice rfl (by decide), h.2.2.2 rfl⟩

/-- C10: called on a state holding fewer than two center cards (for
example before the deal, when `center_cards` is empty), the seer center
inspection raises an out-of-range indexing error — modelled by the
`indexError` outcome — instead of returning the `None` failure value,
because `center_cards[0]` and `center_cards[1]` are formatted
unconditionally once the seer checks pass; the state is unchanged. -/
theorem seer_center_index_error (state : GameState) (seer_id : Int) (seer : Player)
    (hs : state.get_player seer_id = some seer)
    (hrole : seer.initial_role = Role.seer)
    (hc : state.center_cards.length < 2) :
    process_seer_action_center state seer_id = (state, CenterOutcome.indexError) := by
  cases hcc : state.center_cards with
  | nil => simp [process_seer_action_center, hs, hrole, hcc]
  | cons r0 rest =>
    cases rest with
    | nil => simp [process_seer_action_center, hs, hrole, hcc]
    | cons r1 rest2 =>
      rw [hcc] at hc
      simp only [List.length_cons] at hc
      omega

/-- A seer in a session where the deal has not run: no center cards. -/
def preDealState : GameState := { players := [dave] }

/-- C10 witness: before the deal the center inspection hits the index
error. -/
theorem seer_center_index_error_witness :
    process_seer_action_center preDealState 3 = (preDealState, CenterOutcome.indexError) :=
  seer_center_index_error preDealState 3 dave rfl rfl (by decide)

/-- A list is pointwise related to its image under a map. -/
lemma forall2_map_self {α β : Type} (l : List α) (g : α → β) (R : α → β → Prop)
    (h : ∀ x ∈ l, R x (g x)) : List.Forall₂ R l (l.map g) := by
  induction l with
  | nil => simp
  | cons x l ih =>
    simp only [List.map_cons, List.forall₂_cons]
    exact ⟨h x (by simp), ih (fun y hy => h y (by simp [hy]))⟩

/-- C6: for distinct roster players A (a thief by initial role) and B,
the swap exchanges exactly the two current roles: afterwards every
roster entry with A's id holds B's pre-swap current role and vice versa,
every other player is completely untouched, and every player's
initial_role (including A's) is unchanged; a self-targeted or
unknown-target call fails with no state change at all, and a skip leaves
every player's roles unchanged. -/
theorem thief_action_spec (state : GameState) (thief_id target_id : Int)
    (a b : Player)
    (ha : state.get_player thief_id = some a)
    (hrole : a.initial_role = Role.thief)
    (hb : state.get_player target_id = some b)
    (hne : thief_id ≠ target_id) :
    (process_thief_action state thief_id (some target_id)).2 =
      some b.current_role ∧
    List.Forall₂ (fun p q =>
        q.user_id = p.user_id ∧
        q.username = p.username ∧
        q.initial_role = p.initial_role ∧
        (p.user_id = thief_id → q.current_role = b.current_role) ∧
        (p.user_id = target_id → q.current_role = a.current_role) ∧
        (p.user_id ≠ thief_id → p.user_id ≠ target_id → q = p))
      state.players
      (process_thief_action state thief_id (some target_id)).1.players ∧
    (process_thief_action state thief_id (some thief_id) = (state, none)) ∧
    (∀ tid, state.get_player tid = none →
      process_thief_action state thief_id (some tid) = (state, none)) ∧
    ((process_thief_action state thief_id none).2 = none ∧
      List.Forall₂ (fun p q =>
          q.user_id = p.user_id ∧
          q.current_role = p.current_role ∧
          q.initial_role = p.initial_role)
        state.players (process_thief_action state thief_id none).1.players) := by
  refine ⟨?_, ?_, ?_, ?_, ?_, ?_⟩
  · simp [process_thief_action, ha, hb, hrole, hne]
  · have hrun : (process_thief_action state thief_id (some target_id)).1.players =
        ((state.players.map (fun p =>
            if p.user_id = thief_id then { p with current_role := b.current_role }
            else p)).map (fun p =>
            if p.user_id = target_id then { p with current_role := a.current_role }
            else p)).map (fun p =>
            if p.user_id = thief_id then
              { p with
                  night_action := some
                    { action_type := .thiefSwap
                      target_player_id := some target_id
                      result := b.username ++
                        " とカードを交換しました。新しい役職: " ++
                        b.current_role.value }
                  has_acted := true }
            else p) := by
      simp [process_thief_action, ha, hb, hrole, hne, GameState.update_player]
    rw [hrun, List.map_map, List.map_map]
    apply forall2_map_self
    intro x hx
    by_cases hxa : x.user_id = thief_id
    · have hxb : ¬ x.user_id = target_id := by rw [hxa]; exact hne
      simp [Function.comp, hxa, hxb, hne]
    · by_cases hxb : x.user_id = target_id
      · simp [Function.comp, hxa, hxb, hne.symm]
      · simp [Function.comp, hxa, hxb]
  · simp [process_thief_action, ha, hrole]
  · intro tid ht
    simp [process_thief_action, ha, hrole, ht]
  · simp [process_thief_action, ha, hrole]
  · have hrun : (process_thief_action state thief_id none).1.players =
        state.players.map (fun p =>
          if p.user_id = thief_id then
            { p with
                night_action := some
                  { action_type := .thiefSkip, result := "何もしませんでした" }
                has_acted := true }
          else p) := by
      simp [process_thief_action, ha, hrole, GameState.update_player]
    rw [hrun]
    apply forall2_map_self
    intro x hx
    by_cases hxa : x.user_id = thief_id <;> simp [hxa]

/-- A thief next to a werewolf, night phase. -/
def erin : Player :=
  { user_id := 4, username := "erin", initial_role := .thief, current_role := .thief }

def thiefState : GameState :=
  { players := [erin, bob], center_cards := [.villager, .villager], phase := .night }

/-- C6 witness: erin the thief swaps with bob the werewolf and becomes a
werewolf; a self-targeted call fails without mutation. -/
theorem thief_action_spec_witness :
    (process_thief_action thiefState 4 (some 2)).2 = some Role.werewolf ∧
    process_thief_action thiefState 4 (some 4) = (thiefState, none) := by
  have h := thief_action_spec thiefState 4 2 erin bob rfl rfl rfl (by decide)
  exact ⟨h.1, h.2.2.1⟩

/-- C8 counterexample: the engine performs no phase check — during the
voting phase a seer's inspection is accepted: it returns the target's
role and mutates the state (the seer's has_acted flag is set), refuting
"an action submitted during the wrong phase is rejected with a failure
result and mutates no state". -/
def latePhaseState : GameState :=
  { players := [alice, dave], center_cards := [.thief, .tanner], phase := .voting }

theorem seer_acts_in_wrong_phase :
    latePhaseState.phase = GamePhase.voting ∧
    (process_seer_action_player latePhaseState 3 1).2 = some Role.villager ∧
    ((process_seer_action_player latePhaseState 3 1).1.get_player 3).map
      Player.has_acted = some true :=
  ⟨rfl, rfl, rfl⟩

/-- C8 (amended): a night action submitted by a player whose
initial_role does not match the action's required role — or by a
non-roster id — is rejected with a failure result and mutates no state;
the engine itself performs no phase check (phase gating is the front
end's responsibility). -/
theorem night_action_role_gate (state : GameState) (actor_id target_id : Int) :
    (∀ p, state.get_player actor_id = some p → p.initial_role ≠ Role.seer →
      process_seer_action_player state actor_id target_id = (state, none) ∧
      process_seer_action_center state actor_id = (state, CenterOutcome.invalid)) ∧
    (∀ p tid, state.get_player actor_id = some p → p.initial_role ≠ Role.thief →
      process_thief_action state actor_id tid = (state, none)) ∧
    (state.get_player actor_id = none →
      process_seer_action_player state actor_id target_id = (state, none) ∧
      process_seer_action_center state actor_id = (state, CenterOutcome.invalid) ∧
      ∀ tid, process_thief_action state actor_id tid = (state, none)) := by
  refine ⟨?_, ?_, ?_⟩
  · intro p hp hrole
    constructor
    · cases ht : state.get_player target_id <;>
        simp [process_seer_action_player, hp, ht, hrole]
    · simp [process_seer_action_center, hp, hrole]
  · intro p tid hp hrole
    simp [process_thief_action, hp, hrole]
  · intro hp
    refine ⟨?_, ?_, ?_⟩
    · simp [process_seer_action_player, hp]
    · simp [process_seer_action_center, hp]
    · intro tid; simp [process_thief_action, hp]

/-- C8 witness: alice, a villager, can neither use the seer inspection
nor the thief swap — both calls fail and leave the state unchanged. -/
theorem night_action_role_gate_witness :
    process_seer_action_player seerState 1 3 = (seerState, none) ∧
    process_thief_action seerState 1 (some 3) = (seerState, none) := by
  have h := night_action_role_gate seerState 1 3
  exact ⟨(h.1 alice rfl (by decide)).1, h.2.1 alice (some 3) rfl (by decide)⟩

/-- C9 counterexample: the engine never checks has_acted — after erin's
first swap (has_acted is true) a second process_thief_action call is
accepted and exchanges the two cards again (erin gets thief back, bob
gets werewolf back), refuting "the engine never applies a second swap
for a thief who has already completed their night action". -/
theorem thief_second_swap_applied :
    ((process_thief_action thiefState 4 (some 2)).1.get_player 4).map
      Player.has_acted = some true ∧
    (process_thief_action (process_thief_action thiefState 4 (some 2)).1
      4 (some 2)).2 = some Role.thief ∧
    ((process_thief_action (process_thief_action thiefState 4 (some 2)).1
      4 (some 2)).1.get_player 2).map Player.current_role = some Role.werewolf :=
  ⟨rfl, rfl, rfl⟩

/-- C9 (amended): each process_thief_action call applies exactly one
symmetric, atomic exchange, but the engine accepts such a call even for
a thief whose has_acted flag is already set — it swaps again; enforcing
at most one swap per game pass is the caller's (front end's)
responsibility. -/
theorem thief_swap_ignores_has_acted (state : GameState) (thief_id target_id : Int)
    (a b : Player)
    (ha : state.get_player thief_id = some a)
    (hrole : a.initial_role = Role.thief)
    (hacted : a.has_acted = true)
    (hb : state.get_player target_id = some b)
    (hne : thief_id ≠ target_id) :
    (process_thief_action state thief_id (some target_id)).2 =
      some b.current_role := by
  simp [process_thief_action, ha, hb, hrole, hne]

/-- Erin and bob as they stand after the first swap. -/
def erinAfter : Player :=
  { erin with
      current_role := Role.werewolf
      has_acted := true
      night_action := some
        { action_type := .thiefSwap
          target_player_id := some 2
          result := bob.username ++
            " とカードを交換しました。新しい役職: " ++ Role.werewolf.value } }

def bobAfter : Player := { bob with current_role := Role.thief }

/-- C9 witness: the amended statement instantiated after erin's first
swap — her has_acted flag is set, yet the second call swaps again. -/
theorem thief_swap_ignores_has_acted_witness :
    (process_thief_action (process_thief_action thiefState 4 (some 2)).1
      4 (some 2)).2 = some Role.thief :=
  thief_swap_ignores_has_acted (process_thief_action thiefState 4 (some 2)).1
    4 2 erinAfter bobAfter rfl rfl rfl rfl (by decide)

/-- One increment of tally bucket `key` — the Python
`vote_counts[k] += 1` on the dict embedded as an association list. -/
def bump (counts : List (Int × Nat)) (key : Int) : List (Int × Nat) :=
  counts.map (fun kv => if kv.1 = key then (kv.1, kv.2 + 1) else kv)

/-- The loop body of `calculate_votes`: Python's
`if vote_target_id is not None: if target in vote_counts: … elif target == -1: …`
(the elif is dead code, since -1 is always a key). -/
def tally_step (vote_counts : List (Int × Nat)) (player : Player) :
    List (Int × Nat) :=
  match player.vote_target_id with
  | none => vote_counts
  | some t =>
    if t ∈ vote_counts.map Prod.fst then bump vote_counts t
    else if t = -1 then bump vote_counts (-1)
    else vote_counts

/-- Embedding of `calculate_votes` (logic.py:340): every roster member
and the abstain sentinel -1 start at zero, then each player's cast vote
increments one bucket.  The Python dict (unique keys, insertion order)
is embedded as an association list: roster order, then -1. -/
def calculate_votes (state : GameState) : List (Int × Nat) :=
  state.players.foldl tally_step
    (state.players.map (fun p => (p.user_id, (0 : Nat))) ++ [(-1, 0)])

/-- Embedding of `determine_execution` (logic.py:361).  Python's
`max(vote_counts.values())` on the (always nonempty) dict equals
`foldl Nat.max 0` on the value list; the `[]` arm of the match is
unreachable, since a nonzero maximum is attained (Python indexes
`max_voted[0]` there). -/
def determine_execution (state : GameState) : GameState × List Int :=
  let vote_counts := calculate_votes state
  if vote_counts = [] then (state, [])
  else
    let max_votes := (vote_counts.map Prod.snd).foldl Nat.max 0
    if max_votes = 0 then (state, [])
    else
      let max_voted :=
        (vote_counts.filter (fun kv => decide (kv.2 = max_votes))).map Prod.fst
      if 1 < max_voted.length then (state, [])
      else
        match max_voted with
        | [] => (state, [])
        | uid :: _ =>
          if uid = -1 then ({ state with executed_player_ids := [] }, [])
          else ({ state with executed_player_ids := max_voted }, max_voted)

/-- Embedding of `determine_winner` (logic.py:401). -/
def determine_winner (state : GameState) : GameState × List Team :=
  let executed_players :=
    state.executed_player_ids.filterMap (fun uid => state.get_player uid)
  let executed_roles := executed_players.map Player.current_role
  if Role.tanner ∈ executed_roles then
    ({ state with winners := [Team.tanner] }, [Team.tanner])
  else if state.executed_player_ids = [] then
    if state.get_players_by_role Role.werewolf true ≠ [] then
      ({ state with winners := [Team.werewolf] }, [Team.werewolf])
    else
      ({ state with winners := [Team.village] }, [Team.village])
  else if Role.werewolf ∈ executed_roles then
    ({ state with winners := [Team.village] }, [Team.village])
  else
    ({ state with winners := [Team.werewolf] }, [Team.werewolf])

/-- A role occurs among the executed players' current roles exactly when
some executed id resolves to a player currently holding it. -/
lemma mem_executed_roles_iff (state : GameState) (r : Role) :
    r ∈ ((state.executed_player_ids.filterMap
        (fun uid => state.get_player uid)).map Player.current_role) ↔
      ∃ uid p, uid ∈ state.executed_player_ids ∧
        state.get_player uid = some p ∧ p.current_role = r := by
  simp only [List.mem_map, List.mem_filterMap]
  constructor
  · rintro ⟨p, ⟨uid, huid, hp⟩, hr⟩
    exact ⟨uid, p, huid, hp, hr⟩
  · rintro ⟨uid, p, huid, hp, hr⟩
    exact ⟨p, ⟨uid, huid, hp⟩, hr⟩

/-- The werewolf-presence test of determine_winner: the filtered list is
nonempty exactly when some player currently holds the werewolf card. -/
lemma werewolves_in_game_iff (state : GameState) :
    state.get_players_by_role Role.werewolf true ≠ [] ↔
      ∃ p ∈ state.players, p.current_role = Role.werewolf := by
  unfold GameState.get_players_by_role
  constructor
  · intro h
    rcases hl : state.players.filter
        (fun p => decide ((if true then p.current_role else p.initial_role) = Role.werewolf)) with _ | ⟨q, rest⟩
    · exact absurd hl h
    · have hq := List.mem_filter.mp (hl ▸ List.mem_cons_self q rest)
      exact ⟨q, hq.1, by simpa using hq.2⟩
  · rintro ⟨p, hp, hr⟩ hnil
    have := List.filter_eq_nil_iff.mp hnil p hp
    simp [hr] at this

/-- C3: for every post-execution state whose executed ids are all in the
roster, determine_winner is the priority cascade of the spec: an
executed Tanner gives {Tanner}; otherwise with nobody executed the
winner is {Werewolf} when a werewolf is currently in play and {Village}
when not; otherwise an executed werewolf gives {Village}; otherwise
{Werewolf}.  The final conjunct records that one of the five branch
conditions always holds (and they are pairwise incompatible by shape),
so exactly one branch applies to every such state. -/
theorem determine_winner_spec (state : GameState)
    (hexec : ∀ uid ∈ state.executed_player_ids,
      (state.get_player uid).isSome = true) :
    ((∃ uid p, uid ∈ state.executed_player_ids ∧
        state.get_player uid = some p ∧ p.current_role = Role.tanner) →
      (determine_winner state).2 = [Team.tanner]) ∧
    (state.executed_player_ids = [] →
      (∃ p ∈ state.players, p.current_role = Role.werewolf) →
      (determine_winner state).2 = [Team.werewolf]) ∧
    (state.executed_player_ids = [] →
      ¬ (∃ p ∈ state.players, p.current_role = Role.werewolf) →
      (determine_winner state).2 = [Team.village]) ∧
    (state.executed_player_ids ≠ [] →
      ¬ (∃ uid p, uid ∈ state.executed_player_ids ∧
          state.get_player uid = some p ∧ p.current_role = Role.tanner) →
      (∃ uid p, uid ∈ state.executed_player_ids ∧
          state.get_player uid = some p ∧ p.current_role = Role.werewolf) →
      (determine_winner state).2 = [Team.village]) ∧
    (state.executed_player_ids ≠ [] →
      ¬ (∃ uid p, uid ∈ state.executed_player_ids ∧
          state.get_player uid = some p ∧ p.current_role = Role.tanner) →
      ¬ (∃ uid p, uid ∈ state.executed_player_ids ∧
          state.get_player uid = some p ∧ p.current_role = Role.werewolf) →
      (determine_winner state).2 = [Team.werewolf]) ∧
    ((∃ uid p, uid ∈ state.executed_player_ids ∧
        state.get_player uid = some p ∧ p.current_role = Role.tanner) ∨
      (state.executed_player_ids = [] ∧
        (∃ p ∈ state.players, p.current_role = Role.werewolf)) ∨
      (state.executed_player_ids = [] ∧
        ¬ (∃ p ∈ state.players, p.current_role = Role.werewolf)) ∨
      (state.executed_player_ids ≠ [] ∧
        ¬ (∃ uid p, uid ∈ state.executed_player_ids ∧
            state.get_player uid = some p ∧ p.current_role = Role.tanner) ∧
        (∃ uid p, uid ∈ state.executed_player_ids ∧
            state.get_player uid = some p ∧ p.current_role = Role.werewolf)) ∨
      (state.executed_player_ids ≠ [] ∧
        ¬ (∃ uid p, uid ∈ state.executed_player_ids ∧
            state.get_player uid = some p ∧ p.current_role = Role.tanner) ∧
        ¬ (∃ uid p, uid ∈ state.executed_player_ids ∧
            state.get_player uid = some p ∧ p.current_role = Role.werewolf))) := by
  refine ⟨?_, ?_, ?_, ?_, ?_, ?_⟩
  · intro h
    have ht := (mem_executed_roles_iff state Role.tanner).mpr h
    simp [determine_winner, ht]
  · intro hE hW
    have hw := (werewolves_in_game_iff state).mpr hW
    simp [determine_winner, hE, hw]
  · intro hE hW
    have hw : ¬ state.get_players_by_role Role.werewolf true ≠ [] := by
      rw [werewolves_in_game_iff]; exact hW
    simp [determine_winner, hE, not_not.mp hw]
  · intro hE hT hW
    have ht : Role.tanner ∉ ((state.executed_player_ids.filterMap
        (fun uid => state.get_player uid)).map Player.current_role) := by
      rw [mem_executed_roles_iff]; exact hT
    have hw := (mem_executed_roles_iff state Role.werewolf).mpr hW
    simp [determine_winner, hE, ht, hw]
  · intro hE hT hW
    have ht : Role.tanner ∉ ((state.executed_player_ids.filterMap
        (fun uid => state.get_player uid)).map Player.current_role) := by
      rw [mem_executed_roles_iff]; exact hT
    have hw : Role.werewolf ∉ ((state.executed_player_ids.filterMap
        (fun uid => state.get_player uid)).map Player.current_role) := by
      rw [mem_executed_roles_iff]; exact hW
    simp [determine_winner, hE, ht, hw]
  · by_cases hE : state.executed_player_ids = []
    · by_cases hW : ∃ p ∈ state.players, p.current_role = Role.werewolf
      · exact Or.inr (Or.inl ⟨hE, hW⟩)
      · exact Or.inr (Or.inr (Or.inl ⟨hE, hW⟩))
    · by_cases hT : ∃ uid p, uid ∈ state.executed_player_ids ∧
          state.get_player uid = some p ∧ p.current_role = Role.tanner
      · exact Or.inl hT
      · by_cases hW : ∃ uid p, uid ∈ state.executed_player_ids ∧
            state.get_player uid = some p ∧ p.current_role = Role.werewolf
        · exact Or.inr (Or.inr (Or.inr (Or.inl ⟨hE, hT, hW⟩)))
        · exact Or.inr (Or.inr (Or.inr (Or.inr ⟨hE, hT, hW⟩)))

/-- A tanner executed next to a surviving villager. -/
def ivan : Player :=
  { user_id := 5, username := "ivan", initial_role := .tanner, current_role := .tanner }

def executedState : GameState :=
  { players := [alice, ivan], executed_player_ids := [5], phase := .ended }

/-- C3 witness: executing ivan the tanner yields the tanner-only win. -/
theorem determine_winner_spec_witness :
    (determine_winner executedState).2 = [Team.tanner] := by
  have h := determine_winner_spec executedState (by decide)
  exact h.1 ⟨5, ivan, by decide, rfl, rfl⟩

/-- The count recorded for identity `k` in a tally, if any — the
spec-level reading `tally() -> mapping(identity -> count)` of the
association list. -/
def tally_lookup (counts : List (Int × Nat)) (k : Int) : Option Nat :=
  (counts.find? (fun kv => decide (kv.1 = k))).map Prod.snd

/-- Bumping a bucket does not change the key list. -/
lemma bump_keys (c : List (Int × Nat)) (k : Int) :
    (bump c k).map Prod.fst = c.map Prod.fst := by
  induction c with
  | nil => rfl
  | cons kv c ih =>
    by_cases h : kv.1 = k <;> simp only [bump, List.map_cons] at ih ⊢ <;>
      simp [h, ih]

/-- One tally step does not change the key list. -/
lemma tally_step_keys (acc : List (Int × Nat)) (player : Player) :
    (tally_step acc player).map Prod.fst = acc.map Prod.fst := by
  unfold tally_step
  cases player.vote_target_id with
  | none => rfl
  | some t =>
    by_cases h1 : t ∈ acc.map Prod.fst
    · simp [h1, bump_keys]
    · by_cases h2 : t = -1 <;> simp [h1, h2, bump_keys]

lemma foldl_tally_keys (ps : List Player) (acc : List (Int × Nat)) :
    ((ps.foldl tally_step acc).map Prod.fst) = acc.map Prod.fst := by
  induction ps generalizing acc with
  | nil => rfl
  | cons p ps ih => rw [List.foldl_cons, ih, tally_step_keys]

/-- The tally's keys are exactly the roster ids followed by the abstain
sentinel. -/
lemma calculate_votes_keys (state : GameState) :
    (calculate_votes state).map Prod.fst =
      state.players.map Player.user_id ++ [-1] := by
  unfold calculate_votes
  rw [foldl_tally_keys]
  simp

/-- Characterization of the running maximum of a list of counts. -/
lemma foldl_max_le (l : List Nat) (a b : Nat) :
    l.foldl Nat.max a ≤ b ↔ a ≤ b ∧ ∀ x ∈ l, x ≤ b := by
  induction l generalizing a with
  | nil => simp
  | cons x l ih =>
    rw [List.foldl_cons, ih]
    simp only [List.mem_cons, Nat.max_le]
    constructor
    · rintro ⟨⟨hab, hxb⟩, hl⟩
      exact ⟨hab, fun y hy => hy.elim (fun h => h ▸ hxb) (hl y)⟩
    · rintro ⟨hab, hl⟩
      exact ⟨⟨hab, hl x (Or.inl rfl)⟩, fun y hy => hl y (Or.inr hy)⟩

/-- The running maximum is the seed or an element of the list. -/
lemma foldl_max_attained (l : List Nat) (a : Nat) :
    l.foldl Nat.max a = a ∨ l.foldl Nat.max a ∈ l := by
  induction l generalizing a with
  | nil => exact Or.inl rfl
  | cons x l ih =>
    rw [List.foldl_cons]
    rcases ih (Nat.max a x) with h | h
    · rcases Nat.le_total x a with hxa | hax
      · exact Or.inl (by rw [h]; exact Nat.max_eq_left hxa)
      · refine Or.inr ?_
        rw [h]
        have hx : Nat.max a x = x := Nat.max_eq_right hax
        rw [hx]
        exact List.mem_cons_self x l
    · exact Or.inr (List.mem_cons_of_mem x h)

/-- In an association list with distinct keys, a key determines its
value. -/
lemma nodup_keys_eq_of_mem {l : List (Int × Nat)}
    (h : (l.map Prod.fst).Nodup) {a : Int} {b c : Nat}
    (hb : (a, b) ∈ l) (hc : (a, c) ∈ l) : b = c := by
  induction l with
  | nil => cases hb
  | cons kv l ih =>
    rw [List.map_cons, List.nodup_cons] at h
    rcases List.mem_cons.mp hb with hb1 | hb1 <;>
      rcases List.mem_cons.mp hc with hc1 | hc1
    · rw [← hb1] at hc1
      exact (Prod.mk.injEq _ _ _ _ ▸ hc1).2.symm
    · exact absurd (List.mem_map_of_mem Prod.fst hc1)
        (by rw [← hb1] at h; exact h.1)
    · exact absurd (List.mem_map_of_mem Prod.fst hb1)
        (by rw [← hc1] at h; exact h.1)
    · exact ih h.2 hb1 hc1

/-- Under distinct keys, lookup agrees with membership. -/
lemma tally_lookup_some {c : List (Int × Nat)} (hnd : (c.map Prod.fst).Nodup)
    (k : Int) (n : Nat) : tally_lookup c k = some n ↔ (k, n) ∈ c := by
  constructor
  · intro h
    obtain ⟨kv, hfind, hsnd⟩ : ∃ kv, c.find? (fun kv => decide (kv.1 = k)) = some kv ∧
        kv.2 = n := by
      unfold tally_lookup at h
      cases hf : c.find? (fun kv => decide (kv.1 = k)) with
      | none => rw [hf] at h; cases h
      | some kv => rw [hf] at h; exact ⟨kv, rfl, by injection h⟩
    have hmem := List.mem_of_find?_eq_some hfind
    have hkey : kv.1 = k := by simpa using List.find?_some hfind
    have : kv = (k, n) := by
      rcases kv with ⟨k1, v1⟩
      simp only at hkey hsnd
      rw [hkey, hsnd]
    exact this ▸ hmem
  · intro hmem
    cases hf : c.find? (fun kv => decide (kv.1 = k)) with
    | none =>
      have := List.find?_eq_none.mp hf (k, n) hmem
      simp at this
    | some kv =>
      have hkv_mem := List.mem_of_find?_eq_some hf
      have hkey : kv.1 = k := by simpa using List.find?_some hf
      have hval : kv.2 = n := by
        have : (k, kv.2) ∈ c := by
          rcases kv with ⟨k1, v1⟩
          simp only at hkey
          rw [hkey] at hkv_mem
          exact hkv_mem
        exact nodup_keys_eq_of_mem hnd this hmem
      unfold tally_lookup
      rw [hf]
      simp [hval]

/-- The branch structure of determine_execution once the (always
satisfied) nonemptiness guard is discharged: with `mm` the maximal count
and `tt` the identities attaining it, the decision is the spec's
cascade. -/
lemma determine_execution_run (state : GameState) (mm : Nat) (tt : List Int)
    (hne : ¬ calculate_votes state = [])
    (hmm : mm = ((calculate_votes state).map Prod.snd).foldl Nat.max 0)
    (htt : tt = ((calculate_votes state).filter
      (fun kv => decide (kv.2 = mm))).map Prod.fst) :
    determine_execution state =
      (if mm = 0 then (state, [])
       else if 1 < tt.length then (state, [])
       else
         match tt with
         | [] => (state, [])
         | uid :: _ =>
           if uid = -1 then ({ state with executed_player_ids := [] }, [])
           else ({ state with executed_player_ids := tt }, tt)) := by
  subst htt
  subst hmm
  unfold determine_execution
  simp only [if_neg hne]

/-- C2: after voting, determine_execution returns at most one identity,
and returns exactly `[uid]` precisely when uid is a real roster member
whose tally bucket is positive and strictly above every other bucket
(the abstain sentinel's included).  The claim's empty-result cases are
exactly the complement of that characterization: a zero maximum means
nobody has a positive count, a tie for the maximum means no strict
maximum exists, and the sentinel holding the unique maximum means the
holder is not a roster member.  Key uniqueness mirrors the Python dict;
the sentinel id never collides with a roster id (spec §3). -/
theorem determine_execution_spec (state : GameState)
    (hnd : (state.players.map Player.user_id).Nodup)
    (hsent : (-1 : Int) ∉ state.players.map Player.user_id) :
    ((determine_execution state).2 = [] ∨
      ∃ uid, (determine_execution state).2 = [uid]) ∧
    (∀ uid : Int, (determine_execution state).2 = [uid] ↔
      (uid ∈ state.players.map Player.user_id ∧
       ∃ n, tally_lookup (calculate_votes state) uid = some n ∧ 0 < n ∧
         ∀ k m, k ≠ uid → tally_lookup (calculate_votes state) k = some m →
           m < n)) := by
  have hkeys : (calculate_votes state).map Prod.fst =
      state.players.map Player.user_id ++ [-1] := calculate_votes_keys state
  have hndk : ((calculate_votes state).map Prod.fst).Nodup := by
    rw [hkeys]
    refine List.Nodup.append hnd (List.nodup_singleton _) ?_
    intro a ha hb
    rw [List.mem_singleton] at hb
    exact hsent (hb ▸ ha)
  have hvne : ¬ calculate_votes state = [] := by
    intro h
    have h2 := congrArg (List.map Prod.fst) h
    rw [hkeys] at h2
    simp at h2
  set vc := calculate_votes state with hvc
  set mm := (vc.map Prod.snd).foldl Nat.max 0 with hmm
  set tt := (vc.filter (fun kv => decide (kv.2 = mm))).map Prod.fst with htt
  have hrun := determine_execution_run state mm tt hvne hmm htt
  have hle : ∀ kv ∈ vc, kv.2 ≤ mm := fun kv hkv =>
    ((foldl_max_le (vc.map Prod.snd) 0 mm).mp hmm.ge).2 kv.2
      (List.mem_map_of_mem Prod.snd hkv)
  have hof_tt : ∀ u ∈ tt, (u, mm) ∈ vc := by
    intro u hu
    rw [htt] at hu
    obtain ⟨kv, hkv_f, hfst⟩ := List.mem_map.mp hu
    have hkv_vc := List.mem_of_mem_filter hkv_f
    have hkv_eq : kv.2 = mm := by simpa using List.of_mem_filter hkv_f
    rcases kv with ⟨k1, v1⟩
    simp only at hfst hkv_eq
    rw [← hfst, ← hkv_eq]
    exact hkv_vc
  have hto_tt : ∀ kv ∈ vc, kv.2 = mm → kv.1 ∈ tt := by
    intro kv hkv hval
    rw [htt]
    exact List.mem_map_of_mem Prod.fst
      (List.mem_filter.mpr ⟨hkv, by simpa using hval⟩)
  have htt_nd : tt.Nodup := by
    rw [htt]
    exact hndk.sublist ((List.filter_sublist vc).map Prod.fst)
  have hlk : ∀ k n, tally_lookup vc k = some n ↔ (k, n) ∈ vc :=
    fun k n => tally_lookup_some hndk k n
  by_cases hm0 : mm = 0
  · have hres : (determine_execution state).2 = [] := by rw [hrun]; simp [hm0]
    refine ⟨Or.inl hres, ?_⟩
    intro uid
    rw [hres]
    constructor
    · intro h; simp at h
    · rintro ⟨hid, n, hn, hpos, hstrict⟩
      have hmemn := (hlk uid n).mp hn
      have hb := hle _ hmemn
      simp only at hb
      omega
  · have hatt : mm = 0 ∨ mm ∈ vc.map Prod.snd := by
      rw [hmm]; exact foldl_max_attained _ 0
    obtain ⟨kvm, hkvm_vc, hkvm_val⟩ := List.mem_map.mp (hatt.resolve_left hm0)
    have hkvm_tt : kvm.1 ∈ tt := hto_tt kvm hkvm_vc hkvm_val
    have htt_ne : tt ≠ [] := fun h => by rw [h] at hkvm_tt; cases hkvm_tt
    by_cases h2 : 1 < tt.length
    · have hres : (determine_execution state).2 = [] := by
        rw [hrun]; simp [hm0, h2]
      refine ⟨Or.inl hres, ?_⟩
      intro uid
      rw [hres]
      constructor
      · intro h; simp at h
      · rintro ⟨hid, n, hn, hpos, hstrict⟩
        obtain ⟨k1, k2, rest, htt_eq⟩ : ∃ k1 k2 rest, tt = k1 :: k2 :: rest := by
          match htt2 : tt, h2 with
          | k1 :: k2 :: rest, _ => exact ⟨k1, k2, rest, rfl⟩
        have hk12 : k1 ≠ k2 := by
          rw [htt_eq, List.nodup_cons] at htt_nd
          exact fun h => htt_nd.1 (h ▸ List.mem_cons_self k2 rest)
        have hm1 : (k1, mm) ∈ vc :=
          hof_tt k1 (htt_eq ▸ List.mem_cons_self k1 (k2 :: rest))
        have hm2 : (k2, mm) ∈ vc :=
          hof_tt k2 (htt_eq ▸ List.mem_cons_of_mem k1 (List.mem_cons_self k2 rest))
        have hnle : n ≤ mm := by
          have hb := hle _ ((hlk uid n).mp hn)
          simpa using hb
        by_cases hq : k1 = uid
        · have hk2uid : k2 ≠ uid := fun he => hk12 (hq.trans he.symm)
          have hlt := hstrict k2 mm hk2uid ((hlk k2 mm).mpr hm2)
          omega
        · have hlt := hstrict k1 mm hq ((hlk k1 mm).mpr hm1)
          omega
    · have hlen1 : tt.length = 1 := by
        have hp := List.length_pos.mpr htt_ne
        omega
      obtain ⟨u0, htt_eq⟩ := List.length_eq_one.mp hlen1
      have hu0_vc : (u0, mm) ∈ vc :=
        hof_tt u0 (by rw [htt_eq]; exact List.mem_cons_self u0 [])
      have hothers : ∀ kv ∈ vc, kv.1 ≠ u0 → kv.2 < mm := by
        intro kv hkv hneq
        have hlekv := hle kv hkv
        rcases Nat.lt_or_ge kv.2 mm with h | h
        · exact h
        · have heq : kv.2 = mm := le_antisymm hlekv h
          have hmem := hto_tt kv hkv heq
          rw [htt_eq] at hmem
          exact absurd (List.mem_singleton.mp hmem) hneq
      by_cases hu0s : u0 = -1
      · have hres : (determine_execution state).2 = [] := by
          rw [hrun, htt_eq]; simp [hm0, hu0s]
        refine ⟨Or.inl hres, ?_⟩
        intro uid
        rw [hres]
        constructor
        · intro h; simp at h
        · rintro ⟨hid, n, hn, hpos, hstrict⟩
          by_cases hud : uid = -1
          · exact absurd (hud ▸ hid) hsent
          · have hneq : u0 ≠ uid := by rw [hu0s]; exact fun he => hud he.symm
            have hlt := hstrict u0 mm hneq ((hlk u0 mm).mpr hu0_vc)
            have hnle : n ≤ mm := by
              have hb := hle _ ((hlk uid n).mp hn)
              simpa using hb
            omega
      · have hres : (determine_execution state).2 = [u0] := by
          rw [hrun, htt_eq]; simp [hm0, hu0s]
        refine ⟨Or.inr ⟨u0, hres⟩, ?_⟩
        intro uid
        rw [hres]
        constructor
        · intro h
          have huid : u0 = uid := by simpa using h
          subst huid
          refine ⟨?_, mm, (hlk u0 mm).mpr hu0_vc, Nat.pos_of_ne_zero hm0, ?_⟩
          · have hmem : u0 ∈ vc.map Prod.fst :=
              List.mem_map_of_mem Prod.fst hu0_vc
            rw [hkeys] at hmem
            rcases List.mem_append.mp hmem with h' | h'
            · exact h'
            · exact absurd (List.mem_singleton.mp h') hu0s
          · intro k m hk hkm
            exact hothers (k, m) ((hlk k m).mp hkm) hk
        · rintro ⟨hid, n, hn, hpos, hstrict⟩
          by_cases hq : uid = u0
          · rw [hq]
          · have hlt := hstrict u0 mm (fun he => hq he.symm)
              ((hlk u0 mm).mpr hu0_vc)
            have hnle : n ≤ mm := by
              have hb := hle _ ((hlk uid n).mp hn)
              simpa using hb
            omega

/-- A three-player session after voting: players 1 and 2 voted for
player 3, player 3 abstained. -/
def talliedState : GameState :=
  { players := [
      { user_id := 1, username := "p1", initial_role := .villager,
        current_role := .villager, vote_target_id := some 3 },
      { user_id := 2, username := "p2", initial_role := .seer,
        current_role := .seer, vote_target_id := some 3 },
      { user_id := 3, username := "p3", initial_role := .werewolf,
        current_role := .werewolf, vote_target_id := some (-1) }]
    phase := .voting }

/-- C2 witness: with votes {3: 2, abstain: 1} the unique strict-maximum
holder, player 3, is executed. -/
theorem determine_execution_spec_witness :
    (determine_execution talliedState).2 = [3] ∧
    3 ∈ talliedState.players.map Player.user_id ∧
    ∃ n, tally_lookup (calculate_votes talliedState) 3 = some n ∧ 0 < n := by
  have h := (determine_execution_spec talliedState (by decide) (by decide)).2 3
  have hres : (determine_execution talliedState).2 = [3] := by decide
  obtain ⟨hid, n, hn, hpos, hrest⟩ := h.mp hres
  exact ⟨hres, hid, n, hn, hpos⟩

end OneNight
